import Mathlib

/-!
Shallow embedding of src/prep_data_v2.py (a pandas-based survey-data
normalisation engine) and verification of the frozen claims about it.

Modelling conventions:
- a pandas DataFrame is a `Table`: an ordered list of named `Column`s, each
  holding a dtype tag and an ordered list of `Cell`s;
- a cell is a string, the absent marker (modelling both `pd.NA` and
  `np.nan`, which the source always treats together), a 64-bit style
  integer (modelled as `Int`) or a float that arose from parsing a decimal
  literal (modelled exactly as `Dec`, a sign-magnitude decimal with a
  power-of-ten denominator; the engine never performs float arithmetic,
  only parsing, printing and equality, so this representation is exact);
- `DataFrame.replace` with a dict is a simultaneous elementwise rewrite;
- `DataFrame.update(other)` copies non-absent values of `other` onto the
  receiver (absent values in `other` are skipped), which the per-cell
  function `updateFromReplaced` reproduces;
- string helpers are reimplemented structurally over `List Char` so that
  every definition evaluates by kernel reduction on concrete inputs.
-/

/-- Dtype tags of the pandas columns the source manipulates. -/
inductive Dtype where
  | object : Dtype
  | int64 : Dtype
  | float64 : Dtype
deriving DecidableEq, Repr

/-- Exact decimal value `num / 10 ^ exp`, as produced by parsing a numeric
literal. The fractional digits carry no trailing zeros (so `exp = 0` for
integral values), hence equal decimal values have equal representations. -/
structure Dec where
  num : Int
  exp : Nat
deriving DecidableEq, Repr

/-- A single cell of a loaded table. -/
inductive Cell where
  | str : String → Cell
  | na : Cell
  | int : Int → Cell
  | float : Dec → Cell
deriving DecidableEq, Repr

instance : Inhabited Cell := ⟨Cell.str ""⟩

/-- A named column: its label, its pandas dtype, and its cells. -/
structure Column where
  name : String
  dtype : Dtype
  cells : List Cell
deriving DecidableEq, Repr

/-- A DataFrame: an ordered list of named columns. -/
structure Table where
  cols : List Column
deriving DecidableEq, Repr

instance {e a : Type} [DecidableEq e] [DecidableEq a] : DecidableEq (Except e a) :=
  fun x y =>
    match x, y with
    | Except.error u, Except.error v =>
      match decEq u v with
      | isTrue h => isTrue (h ▸ rfl)
      | isFalse h => isFalse (fun hh => h (Except.error.inj hh))
    | Except.ok u, Except.ok v =>
      match decEq u v with
      | isTrue h => isTrue (h ▸ rfl)
      | isFalse h => isFalse (fun hh => h (Except.ok.inj hh))
    | Except.error _, Except.ok _ => isFalse (fun hh => Except.noConfusion hh)
    | Except.ok _, Except.error _ => isFalse (fun hh => Except.noConfusion hh)

/-! ### Structural string helpers (kernel-reducible) -/

/-- Does `needle` occur as a contiguous subsequence of `hay`?
Models the Python substring test `needle in hay`. -/
def containsSub (needle : List Char) : List Char → Bool
  | [] => needle.isEmpty
  | c :: rest => needle.isPrefixOf (c :: rest) || containsSub needle rest

/-- Python `hay.startswith(pre)` on strings. -/
def startsWithStr (pre s : String) : Bool :=
  pre.data.isPrefixOf s.data

/-- Python `str.upper()` (ASCII, as the source only meets ASCII names). -/
def upperStr (s : String) : String :=
  ⟨s.data.map Char.toUpper⟩

/-- The source's test for a name-bearing column: `"NAME" in col`. -/
def hasNAME (s : String) : Bool :=
  containsSub "NAME".data s.data

/-- Is `c` an ASCII digit? -/
def isDigit (c : Char) : Bool := '0' ≤ c && c ≤ '9'

/-- Value of a list of ASCII digits, most significant first. -/
def digitsToNat (l : List Char) : Nat :=
  l.foldl (fun acc c => acc * 10 + (c.toNat - 48)) 0

/-- Drop leading and trailing spaces (numeric parsers in the pandas stack
accept surrounding whitespace). -/
def trimSpaces (l : List Char) : List Char :=
  ((l.dropWhile (· = ' ')).reverse.dropWhile (· = ' ')).reverse

/-- Split a leading sign off a numeric literal. -/
def splitSign : List Char → Int × List Char
  | '+' :: rest => (1, rest)
  | '-' :: rest => (-1, rest)
  | l => (1, l)

/-- Remove trailing zero digits (used to canonicalise a fractional part). -/
def stripTrailingZeros (l : List Char) : List Char :=
  (l.reverse.dropWhile (· = '0')).reverse

/-- Parse a decimal literal (optional sign, digits, optional point and
fractional digits; at least one digit overall), the way the numeric
conversion in the pandas stack reads a string. -/
def parseDec? (l0 : List Char) : Option Dec :=
  let l1 := trimSpaces l0
  let sl := splitSign l1
  let intPart := sl.2.takeWhile (· ≠ '.')
  let rest := sl.2.drop intPart.length
  if intPart.all isDigit then
    match rest with
    | [] =>
      if intPart.isEmpty then none
      else some ⟨sl.1 * (digitsToNat intPart : Int), 0⟩
    | '.' :: frac =>
      if frac.all isDigit && !(intPart.isEmpty && frac.isEmpty) then
        let frac2 := stripTrailingZeros frac
        some ⟨sl.1 * (digitsToNat (intPart ++ frac2) : Int), frac2.length⟩
      else none
    | _ => none
  else none

/-- Parse an integer literal (optional sign, digits only), the way Python
`int(...)` reads a string. -/
def parseIntLit? (l0 : List Char) : Option Int :=
  let sl := splitSign (trimSpaces l0)
  if sl.2.isEmpty || !(sl.2.all isDigit) then none
  else some (sl.1 * (digitsToNat sl.2 : Int))

/-- String form of a decimal value (model of the float `str()` output). -/
def decRepr (d : Dec) : String :=
  if d.exp = 0 then toString d.num ++ ".0"
  else
    let sign := if d.num < 0 then "-" else ""
    let digs := (toString d.num.natAbs).data
    if d.exp < digs.length then
      sign ++ (⟨digs.take (digs.length - d.exp)⟩ : String) ++ "." ++
        (⟨digs.drop (digs.length - d.exp)⟩ : String)
    else
      sign ++ "0." ++ (⟨List.replicate (d.exp - digs.length) '0'⟩ : String) ++
        toString d.num.natAbs

/-- Python `str()` of a cell, as applied by `DataFrame.map(str)` and by
`astype(str)`: strings are unchanged and the absent cell prints as
`"nan"` (the representation of `np.nan`, the default pandas null). -/
def cellToString : Cell → String
  | Cell.str s => s
  | Cell.na => "nan"
  | Cell.int n => toString n
  | Cell.float d => decRepr d

/-- Does the cell hold a value pandas would read as an integer literal
(an int cell, or a string of an optional sign and digits)? -/
def isIntLitCell : Cell → Bool
  | Cell.int _ => true
  | Cell.str s => (parseIntLit? s.data).isSome
  | _ => false

/-- Per-cell front end of `pd.to_numeric`: `none` when the cell does not
parse as numeric (the conversion raises), `some none` for a null result
(absent cells and `"nan"`-like text become NaN), `some (some d)` for the
parsed value. -/
def parseCell : Cell → Option (Option Dec)
  | Cell.na => some none
  | Cell.int n => some (some ⟨n, 0⟩)
  | Cell.float d => some (some d)
  | Cell.str s =>
    let l := trimSpaces s.data
    if l = "nan".data || l = "NaN".data then some none
    else (parseDec? s.data).map some

/-- `astype` of one cell to a target dtype: `none` models the coercion
error pandas raises. Casting a float to int64 truncates toward zero;
casting the absent cell to int64 fails; strings must hold a literal of
the target kind. -/
def coerce : Dtype → Cell → Option Cell
  | Dtype.object, c => some c
  | Dtype.int64, Cell.int n => some (Cell.int n)
  | Dtype.int64, Cell.float d => some (Cell.int (d.num / ((10 : Int) ^ d.exp)))
  | Dtype.int64, Cell.str s => (parseIntLit? s.data).map Cell.int
  | Dtype.int64, Cell.na => none
  | Dtype.float64, Cell.float d => some (Cell.float d)
  | Dtype.float64, Cell.int n => some (Cell.float ⟨n, 0⟩)
  | Dtype.float64, Cell.na => some Cell.na
  | Dtype.float64, Cell.str s =>
    let l := trimSpaces s.data
    if l = "nan".data || l = "NaN".data then some Cell.na
    else (parseDec? s.data).map Cell.float

/-- Does the cell belong to the dtype (the well-formedness a real pandas
column maintains: int64 holds ints, float64 holds floats or NaN, object
holds anything)? -/
def cellMatches : Dtype → Cell → Bool
  | Dtype.object, _ => true
  | Dtype.int64, Cell.int _ => true
  | Dtype.int64, _ => false
  | Dtype.float64, Cell.float _ => true
  | Dtype.float64, Cell.na => true
  | Dtype.float64, _ => false

/-- Every column holds only cells of its dtype. -/
def wellFormed (t : Table) : Bool :=
  t.cols.all fun col => col.cells.all (cellMatches col.dtype)

/-- `astype` of a whole cell list to one dtype. -/
def coerceCells (dt : Dtype) : List Cell → Option (List Cell)
  | [] => some []
  | c :: cs =>
    match coerce dt c, coerceCells dt cs with
    | some c2, some cs2 => some (c2 :: cs2)
    | _, _ => none

/-! ### Default-cell accessors, used to state positional properties -/

/-- Column at position `i`, defaulting to an empty unnamed object column. -/
def Table.colD (t : Table) (i : Nat) : Column :=
  t.cols.getD i ⟨"", Dtype.object, []⟩

/-- Cell at column `i`, row `j`, defaulting to the empty string. -/
def Table.cellD (t : Table) (i j : Nat) : Cell :=
  (t.colD i).cells.getD j (Cell.str "")

/-- Number of rows of each column, in column order. -/
def Table.shape (t : Table) : List Nat :=
  t.cols.map fun col => col.cells.length

/-! ### The pandas primitives the source leans on -/

/-- Elementwise table rewrite: `DataFrame.replace` with a dict applies one
simultaneous per-cell function to every cell. -/
def mapCells (f : Cell → Cell) (t : Table) : Table :=
  ⟨t.cols.map fun col => ⟨col.name, col.dtype, col.cells.map f⟩⟩

/-- Per-cell effect of `self.data.update(subset)` where `subset` is a copy
of the receiver with `repl` applied: `update` copies the replaced value
back unless it is absent, in which case the original cell is kept. -/
def updateFromReplaced (repl : Cell → Cell) (c : Cell) : Cell :=
  let c2 := repl c
  if c2 = Cell.na then c else c2

namespace PreppedData

/-- Blank markers of `update_blanks`:
`[" ", "", ".", "nan", "NaN", pd.NA, np.nan]` plus caller additions
(`pd.NA` and `np.nan` both denote the absent cell). -/
def blankList (blank_additions : List Cell) : List Cell :=
  [Cell.str " ", Cell.str "", Cell.str ".", Cell.str "nan", Cell.str "NaN",
    Cell.na] ++ blank_additions

/-- `PreppedData.update_blanks`: replace every blank-class marker with
`blank_val`, table-wide. -/
def update_blanks (t : Table) (blank_val : String)
    (blank_additions : List Cell) : Table :=
  mapCells (fun c => if c ∈ blankList blank_additions then Cell.str blank_val else c) t

/-- Does the table have a name-bearing column? The source computes
`name_cols` once, before any mutation, and later asks
`any(col in self.data.columns for col in name_cols)`; since no step of
`update_missing` renames or drops a column, that test is equivalent to
`name_cols` being non-empty on the input table. -/
def hasNameCol (t : Table) : Bool :=
  t.cols.any fun col => hasNAME col.name

/-- The disambiguation dict of step 1 of `update_missing`:
`subset.replace({"M": ".M", "L": ".L"})`. -/
def missStep1Repl (c : Cell) : Cell :=
  if c = Cell.str "M" then Cell.str ".M"
  else if c = Cell.str "L" then Cell.str ".L"
  else c

/-- The missing-marker list of `update_missing`: `[".M"]` when
`blank=True`, else `[".M", "", " ", "nan", "NaN", pd.NA, np.nan, "."]`,
plus caller additions (the source appends them only when non-empty, which
equals unconditional append). -/
def missLst (blank : Bool) (miss_additions : List Cell) : List Cell :=
  (if blank then [Cell.str ".M"]
   else [Cell.str ".M", Cell.str "", Cell.str " ", Cell.str "nan",
     Cell.str "NaN", Cell.na, Cell.str "."]) ++ miss_additions

/-- The logical-skip marker list of `update_missing`: `[".L"]` when a
name-bearing column exists, else `[".L", "L"]`, plus caller additions. -/
def skipLst (anyName : Bool) (logskip_additions : List Cell) : List Cell :=
  (if anyName then [Cell.str ".L"] else [Cell.str ".L", Cell.str "L"]) ++
    logskip_additions

/-- `PreppedData.update_missing`, in the fixed order of the source:
1. copy the non-name-bearing columns, replace bare `"M"`/`"L"` with
   `".M"`/`".L"` in the copy, and `update` the table from the copy;
2. replace every missing-marker cell with `miss_val`, table-wide;
3. replace every logical-skip-marker cell with `log_skip_val`,
   table-wide, the marker list depending on whether any name-bearing
   column exists. -/
def update_missing (t : Table) (miss_val log_skip_val : String)
    (miss_additions logskip_additions : List Cell) (blank : Bool) : Table :=
  let step1 : Table := ⟨t.cols.map fun col =>
    if hasNAME col.name then col
    else ⟨col.name, col.dtype, col.cells.map (updateFromReplaced missStep1Repl)⟩⟩
  let step2 := mapCells
    (fun c => if c ∈ missLst blank miss_additions then Cell.str miss_val else c)
    step1
  mapCells
    (fun c => if c ∈ skipLst (hasNameCol t) logskip_additions
      then Cell.str log_skip_val else c)
    step2

/-- The end-to-end effect of `update_missing` on one cell, given whether
its column is name-bearing (`isName`) and whether the table has any
name-bearing column (`anyName`); proved below to agree with
`update_missing` columnwise. -/
def missCell (isName anyName : Bool) (mv lsv : String)
    (ma la : List Cell) (blank : Bool) (c : Cell) : Cell :=
  let c1 := if isName then c else updateFromReplaced missStep1Repl c
  let c2 := if c1 ∈ missLst blank ma then Cell.str mv else c1
  if c2 ∈ skipLst anyName la then Cell.str lsv else c2

/-- One cell of the 1:1 substitution of `update_other_missing`:
`subset.replace({add_miss_val: change_to_val})`. -/
def substCell (add_miss_val change_to_val : Cell) (c : Cell) : Cell :=
  if c = add_miss_val then change_to_val else c

/-- `self.data.astype(dtype_dict)`: coerce every column back to its
snapshot dtype, failing on the first column a cell of which cannot be
coerced (the type-coercion error of the spec). -/
def astypeCols : List Column → Except String (List Column)
  | [] => Except.ok []
  | col :: rest =>
    match coerceCells col.dtype col.cells, astypeCols rest with
    | some cs, Except.ok rest2 => Except.ok (⟨col.name, col.dtype, cs⟩ :: rest2)
    | none, _ => Except.error "TypeCoercionError"
    | _, Except.error e => Except.error e

/-- The substitution stage of `update_other_missing`: substitute
`add_miss_val` by `change_to_val` in every column that is neither
name-bearing nor listed in `exclude_cols` (through a copy and
`DataFrame.update`, hence the absent-skipping `updateFromReplaced`). -/
def otherSubstCols (t : Table) (add_miss_val change_to_val : Cell)
    (exclude_cols : List String) : List Column :=
  t.cols.map fun col =>
    if hasNAME col.name || col.name ∈ exclude_cols then col
    else ⟨col.name, col.dtype,
      col.cells.map (updateFromReplaced (substCell add_miss_val change_to_val))⟩

/-- `PreppedData.update_other_missing`: snapshot dtypes (the `dtype`
field, which the substitution leaves untouched), substitute in the
eligible columns, then `astype` the whole table back to the snapshot. -/
def update_other_missing (t : Table) (add_miss_val change_to_val : Cell)
    (exclude_cols : List String) : Except String Table :=
  match astypeCols (otherSubstCols t add_miss_val change_to_val exclude_cols) with
  | Except.ok cs => Except.ok ⟨cs⟩
  | Except.error e => Except.error e

/-- `PreppedData.capitalize_cols`: upper-case every column name. -/
def capitalize_cols (t : Table) : Table :=
  ⟨t.cols.map fun col => ⟨upperStr col.name, col.dtype, col.cells⟩⟩

/-- `PreppedData.fix_index`: drop the columns whose name starts with
`"unnamed"`, then those whose name starts with `"UNNAMED"` (two
successive lower-case-sensitive filters in the source). -/
def fix_index (t : Table) : Table :=
  let t1 : Table := ⟨t.cols.filter fun col => !(startsWithStr "unnamed" col.name)⟩
  ⟨t1.cols.filter fun col => !(startsWithStr "UNNAMED" col.name)⟩

/-- The regex rewrite of `set_int_object`: strip one trailing group
matching `[.][0]+$` (a point followed by one or more zeros at the end). -/
def stripDotZeros (s : String) : String :=
  let r := s.data.reverse
  let z := r.takeWhile (· = '0')
  if !z.isEmpty && (r.drop z.length).headD ' ' = '.' then
    ⟨(r.drop (z.length + 1)).reverse⟩
  else s

/-- `PreppedData.set_int_object`: make every column object-typed, apply
`astype(str)` to each cell and strip a trailing `.0...0` group. -/
def set_int_object (t : Table) : Table :=
  ⟨t.cols.map fun col =>
    ⟨col.name, Dtype.object,
      col.cells.map fun c => Cell.str (stripDotZeros (cellToString c))⟩⟩

/-- `PreppedData.set_all_object`: make every column object-typed, keeping
every cell as it is. -/
def set_all_object (t : Table) : Table :=
  ⟨t.cols.map fun col => ⟨col.name, Dtype.object, col.cells⟩⟩

/-- The `columns.remove(c)` loop of `convert_num_dtypes`: erase each
excluded name from the column-name list, raising (Python `ValueError`)
when an excluded name is not present. -/
def removeAll (names : List String) : List String → Except String (List String)
  | [] => Except.ok names
  | e :: rest =>
    if e ∈ names then removeAll (names.erase e) rest
    else Except.error "ValueError"

/-- `pd.to_numeric` over a cell list: `none` when any cell fails to
parse. -/
def parseCells : List Cell → Option (List (Option Dec))
  | [] => some []
  | c :: cs =>
    match parseCell c, parseCells cs with
    | some v, some vs => some (v :: vs)
    | _, _ => none

/-- Float-column cell for a parsed value (null becomes NaN). -/
def numCellOfVal : Option Dec → Cell
  | some d => Cell.float d
  | none => Cell.na

/-- Int-column cell for a parsed value (only reached when every value is
integral and none is null). -/
def intCellOfVal : Option Dec → Cell
  | some d => Cell.int d.num
  | none => Cell.na

/-- One column of `convert_num_dtypes`: `pd.to_numeric(self.data[col])`
(with `downcast="integer"` when `as_int`), where a parse failure is
swallowed by the `try`/`except: pass` and leaves the column unchanged.
On success the dtype is int64 when `as_int` holds and every value is
integral with no null, or when every input cell is an integer literal
with no null (the int64 default of `to_numeric`); float64 otherwise. -/
def convertCol (col : Column) (as_int : Bool) : Column :=
  match parseCells col.cells with
  | none => col
  | some vals =>
    if as_int && vals.all (fun v => match v with
        | some d => d.exp = 0
        | none => false) then
      ⟨col.name, Dtype.int64, vals.map intCellOfVal⟩
    else if col.cells.all isIntLitCell then
      ⟨col.name, Dtype.int64, vals.map intCellOfVal⟩
    else
      ⟨col.name, Dtype.float64, vals.map numCellOfVal⟩

/-- `PreppedData.convert_num_dtypes`: build the candidate column list by
removing each excluded name (which raises when absent), then convert
each candidate column best-effort. -/
def convert_num_dtypes (t : Table) (exclude : List String) (as_int : Bool) :
    Except String Table :=
  match removeAll (t.cols.map fun col => col.name) exclude with
  | Except.error e => Except.error e
  | Except.ok remaining =>
    Except.ok ⟨t.cols.map fun col =>
      if col.name ∈ remaining then convertCol col as_int else col⟩

/-- `PreppedData.full_prep`: `capitalize_cols`, `fix_index`, then either
`update_blanks` followed by `update_missing(blank=True)` or
`update_missing` alone. The `inpt_type` argument is accepted but the
code that would consult it is commented out in the source, so it is
never read. -/
def full_prep (t : Table) (miss_val : String := ".M")
    (log_skip_val : String := ".L") (blank : Bool := false)
    (blank_val : String := "-97") (inpt_type : Option String := none) : Table :=
  let t1 := capitalize_cols t
  let t2 := fix_index t1
  if blank then
    let t3 := update_blanks t2 blank_val []
    update_missing t3 miss_val log_skip_val [] [] true
  else
    update_missing t2 miss_val log_skip_val [] [] false

end PreppedData

namespace DataAccessor

/-- `DataAccessor.__init__` on an already-materialised DataFrame:
`self.data = pd.DataFrame(self.data.map(str))` — every cell is replaced
by its Python string representation (making every column object-typed),
so an absent cell becomes the literal string of the null marker. -/
def initFromData (df : Table) : Table :=
  ⟨df.cols.map fun col =>
    ⟨col.name, Dtype.object, col.cells.map fun c => Cell.str (cellToString c)⟩⟩

end DataAccessor

/-- The index-artifact predicate of the spec, as the source implements it:
the name starts with all-lower-case or all-upper-case "unnamed". -/
def unnamedArtifact (s : String) : Bool :=
  startsWithStr "unnamed" s || startsWithStr "UNNAMED" s

/-! ### Concrete tables used when settling the claims -/

/-- Name-bearing column next to a plain column holding a bare L. -/
def tableC1 : Table :=
  ⟨[⟨"FNAME", Dtype.object, [Cell.str "L"]⟩, ⟨"Q1", Dtype.object, [Cell.str "L"]⟩]⟩

/-- Name-bearing column holding the dotted missing marker. -/
def tableC2 : Table := ⟨[⟨"FNAME", Dtype.object, [Cell.str ".M"]⟩]⟩

/-- Name-bearing column holding all four protected or dotted values. -/
def tableC2w : Table :=
  ⟨[⟨"FNAME", Dtype.object,
    [Cell.str "M", Cell.str "L", Cell.str ".M", Cell.str ".L"]⟩]⟩

/-- Column holding a two-space whitespace-only cell. -/
def tableC3 : Table := ⟨[⟨"A", Dtype.object, [Cell.str "  "]⟩]⟩

/-- Column holding an absent cell and ordinary content. -/
def tableC3w : Table := ⟨[⟨"A", Dtype.object, [Cell.na, Cell.str "x"]⟩]⟩

/-- Transient sentinel next to a name-bearing column. -/
def tableC4 : Table :=
  ⟨[⟨"A", Dtype.object, [Cell.str ".N"]⟩, ⟨"FNAME", Dtype.object, [Cell.str "M"]⟩]⟩

/-- Int-typed column whose value is about to be replaced by text. -/
def tableC4b : Table := ⟨[⟨"B", Dtype.int64, [Cell.int 7]⟩]⟩

/-- Single column of one integer literal. -/
def tableC5 : Table := ⟨[⟨"A", Dtype.object, [Cell.str "1"]⟩]⟩

/-- Unparseable column next to an excluded numeric column. -/
def tableC5w : Table :=
  ⟨[⟨"A", Dtype.object, [Cell.str "1", Cell.str "x"]⟩,
    ⟨"B", Dtype.object, [Cell.str "2"]⟩]⟩

/-- Mixed-case index artifact, as pandas itself writes it. -/
def tableC6 : Table := ⟨[⟨"Unnamed: 0", Dtype.object, [Cell.str "x"]⟩]⟩

/-- Table free of index artifacts. -/
def tableC6w : Table := ⟨[⟨"A", Dtype.object, [Cell.str "x"]⟩]⟩

/-- Two-row single-column table for the shape checks. -/
def tableC7w : Table := ⟨[⟨"A", Dtype.object, [Cell.str "1", Cell.str ""]⟩]⟩

/-- Float column holding one absent cell. -/
def tableC10w : Table := ⟨[⟨"A", Dtype.float64, [Cell.na]⟩]⟩

/-! ## Theorems: bridge lemmas and the settled claims -/

/-- Out-of-range column access yields the default column. -/
theorem Table.colD_oob (t : Table) (i : Nat) (h : t.cols.length ≤ i) :
    t.colD i = ⟨"", Dtype.object, []⟩ := by
  unfold Table.colD
  exact List.getD_eq_default _ _ h

/-- Out-of-range cell access yields the default cell. -/
theorem Table.cellD_oob (t : Table) (i j : Nat)
    (h : (t.colD i).cells.length ≤ j) : t.cellD i j = Cell.str "" := by
  unfold Table.cellD
  exact List.getD_eq_default _ _ h

/-- Column access commutes with a columnwise map. -/
theorem Table.colD_map (t : Table) (F : Column → Column) (i : Nat)
    (hi : i < t.cols.length) :
    (⟨t.cols.map F⟩ : Table).colD i = F (t.colD i) := by
  unfold Table.colD
  rw [List.getD_eq_getElem?_getD, List.getElem?_map, List.getElem?_eq_getElem hi]
  rw [List.getD_eq_getElem?_getD, List.getElem?_eq_getElem hi]
  rfl

/-- Cell access through a name-preserving columnwise rewrite. -/
theorem Table.cellD_mapped (t : Table) (g : Column → Cell → Cell)
    (dtf : Column → Dtype) (i j : Nat) (hj : j < (t.colD i).cells.length) :
    (⟨t.cols.map fun col => ⟨col.name, dtf col, col.cells.map (g col)⟩⟩ : Table).cellD i j
      = g (t.colD i) (t.cellD i j) := by
  have hi : i < t.cols.length := by
    by_contra hcon
    push_neg at hcon
    rw [Table.colD_oob t i hcon] at hj
    simp at hj
  unfold Table.cellD
  rw [Table.colD_map t _ i hi]
  show ((t.colD i).cells.map (g (t.colD i))).getD j (Cell.str "") = _
  rw [List.getD_eq_getElem?_getD, List.getElem?_map, List.getElem?_eq_getElem hj]
  rw [List.getD_eq_getElem?_getD, List.getElem?_eq_getElem hj]
  rfl

namespace PreppedData

/-- Columnwise form of `update_missing`: every column is mapped through `missCell`, keyed on its own name and on the presence of any name-bearing column. -/
theorem update_missing_cols_eq (t : Table) (mv lsv : String)
    (ma la : List Cell) (blank : Bool) :
    (update_missing t mv lsv ma la blank).cols =
      t.cols.map fun col => ⟨col.name, col.dtype, col.cells.map
        (missCell (hasNAME col.name) (hasNameCol t) mv lsv ma la blank)⟩ := by
  unfold update_missing mapCells
  simp only [List.map_map]
  apply List.map_congr_left
  intro col _
  simp only [Function.comp_apply]
  by_cases h : hasNAME col.name
  · rw [if_pos h, h]
    simp only [List.map_map]
    rfl
  · rw [if_neg h]
    simp only [Bool.not_eq_true] at h
    rw [h]
    simp only [List.map_map]
    rfl

/-- With default marker sets, a bare M in a name-bearing column survives `update_missing`. -/
theorem missCell_name_M (mv lsv : String) (blank : Bool) :
    missCell true true mv lsv [] [] blank (Cell.str "M") = Cell.str "M" := by
  cases blank <;> simp [missCell, missLst, skipLst]

/-- With default marker sets, a bare L in a name-bearing column survives `update_missing`. -/
theorem missCell_name_L (mv lsv : String) (blank : Bool) :
    missCell true true mv lsv [] [] blank (Cell.str "L") = Cell.str "L" := by
  cases blank <;> simp [missCell, missLst, skipLst]

/-- With default marker sets and `miss_val` distinct from `".L"`, a dotted M becomes `miss_val`. -/
theorem missCell_name_dotM (mv lsv : String) (blank : Bool) (hmv : mv ≠ ".L") :
    missCell true true mv lsv [] [] blank (Cell.str ".M") = Cell.str mv := by
  cases blank <;> simp [missCell, missLst, skipLst, hmv]

/-- With default marker sets, a dotted L becomes `log_skip_val`. -/
theorem missCell_name_dotL (mv lsv : String) (blank : Bool) :
    missCell true true mv lsv [] [] blank (Cell.str ".L") = Cell.str lsv := by
  cases blank <;> simp [missCell, missLst, skipLst]

/-- With default marker sets, a bare L outside name-bearing columns is first dotted and then becomes `log_skip_val`, even when a name-bearing column exists. -/
theorem missCell_notname_L (mv lsv : String) (blank : Bool) :
    missCell false true mv lsv [] [] blank (Cell.str "L") = Cell.str lsv := by
  cases blank <;> simp [missCell, missLst, skipLst, updateFromReplaced, missStep1Repl]

end PreppedData

/-- Per-cell reading of `update_missing` at any in-range position. -/
theorem update_missing_cellD (t : Table) (mv lsv : String) (ma la : List Cell)
    (blank : Bool) (i j : Nat) (hj : j < (t.colD i).cells.length) :
    (PreppedData.update_missing t mv lsv ma la blank).cellD i j =
      PreppedData.missCell (hasNAME (t.colD i).name) (PreppedData.hasNameCol t)
        mv lsv ma la blank (t.cellD i j) := by
  have hr : PreppedData.update_missing t mv lsv ma la blank =
      ⟨t.cols.map fun col => ⟨col.name, col.dtype, col.cells.map
        (PreppedData.missCell (hasNAME col.name) (PreppedData.hasNameCol t)
          mv lsv ma la blank)⟩⟩ :=
    congrArg Table.mk (PreppedData.update_missing_cols_eq t mv lsv ma la blank)
  rw [hr]
  exact Table.cellD_mapped t _ _ i j hj

/-- A cell holding a non-empty string literal is in range. -/
theorem cellD_str_lt (t : Table) (i j : Nat) (s : String)
    (hc : t.cellD i j = Cell.str s) (hs : s ≠ "") :
    j < (t.colD i).cells.length := by
  by_contra hcon
  push_neg at hcon
  rw [Table.cellD_oob t i j hcon] at hc
  exact hs (Cell.str.inj hc).symm

/-- Claim C1 (amended): when the table has a name-bearing column and no extra markers are supplied, `update_missing` leaves bare L cells of name-bearing columns unchanged, while bare L cells of the other columns become `log_skip_val` (via the dotted form), for every choice of `miss_val`, `log_skip_val` and the blank flag. -/
theorem claim_C1_amended (t : Table) (mv lsv : String) (blank : Bool)
    (hname : PreppedData.hasNameCol t = true) (i j : Nat) :
    (hasNAME (t.colD i).name = true → t.cellD i j = Cell.str "L" →
      (PreppedData.update_missing t mv lsv [] [] blank).cellD i j = Cell.str "L") ∧
    (hasNAME (t.colD i).name = false → t.cellD i j = Cell.str "L" →
      (PreppedData.update_missing t mv lsv [] [] blank).cellD i j = Cell.str lsv) := by
  constructor
  · intro hn hc
    have hj := cellD_str_lt t i j "L" hc (by decide)
    rw [update_missing_cellD t mv lsv [] [] blank i j hj, hc, hn, hname]
    exact PreppedData.missCell_name_L mv lsv blank
  · intro hn hc
    have hj := cellD_str_lt t i j "L" hc (by decide)
    rw [update_missing_cellD t mv lsv [] [] blank i j hj, hc, hn, hname]
    exact PreppedData.missCell_notname_L mv lsv blank

/-- Claim C1 as stated is false: on a table with the name-bearing column FNAME, the bare L cell of the non-name column Q1 is not left unchanged by `update_missing`. -/
theorem claim_C1_counterexample :
    PreppedData.hasNameCol tableC1 = true ∧
    tableC1.cellD 1 0 = Cell.str "L" ∧
    (PreppedData.update_missing tableC1 "-9" "-8" [] [] false).cellD 1 0 ≠ Cell.str "L" := by
  decide

/-- Witness for the amended claim C1 at a concrete table. -/
theorem claim_C1_witness :
    (PreppedData.update_missing tableC1 "-9" "-8" [] [] false).cellD 0 0 = Cell.str "L" ∧
    (PreppedData.update_missing tableC1 "-9" "-8" [] [] false).cellD 1 0 = Cell.str "-8" :=
  ⟨(claim_C1_amended tableC1 "-9" "-8" false (by decide) 0 0).1 (by decide) (by decide),
   (claim_C1_amended tableC1 "-9" "-8" false (by decide) 1 0).2 (by decide) (by decide)⟩

/-- Claim C2 (amended): with no extra markers and `miss_val` distinct from `".L"`, cells of name-bearing columns holding bare M or bare L are unchanged by `update_missing`, while dotted M cells become `miss_val` and dotted L cells become `log_skip_val`. -/
theorem claim_C2_amended (t : Table) (mv lsv : String) (blank : Bool)
    (hname : PreppedData.hasNameCol t = true) (hmv : mv ≠ ".L")
    (i j : Nat) (hcol : hasNAME (t.colD i).name = true) :
    (t.cellD i j = Cell.str "M" →
      (PreppedData.update_missing t mv lsv [] [] blank).cellD i j = Cell.str "M") ∧
    (t.cellD i j = Cell.str "L" →
      (PreppedData.update_missing t mv lsv [] [] blank).cellD i j = Cell.str "L") ∧
    (t.cellD i j = Cell.str ".M" →
      (PreppedData.update_missing t mv lsv [] [] blank).cellD i j = Cell.str mv) ∧
    (t.cellD i j = Cell.str ".L" →
      (PreppedData.update_missing t mv lsv [] [] blank).cellD i j = Cell.str lsv) := by
  refine ⟨fun hc => ?_, fun hc => ?_, fun hc => ?_, fun hc => ?_⟩
  · have hj := cellD_str_lt t i j "M" hc (by decide)
    rw [update_missing_cellD t mv lsv [] [] blank i j hj, hc, hcol, hname]
    exact PreppedData.missCell_name_M mv lsv blank
  · have hj := cellD_str_lt t i j "L" hc (by decide)
    rw [update_missing_cellD t mv lsv [] [] blank i j hj, hc, hcol, hname]
    exact PreppedData.missCell_name_L mv lsv blank
  · have hj := cellD_str_lt t i j ".M" hc (by decide)
    rw [update_missing_cellD t mv lsv [] [] blank i j hj, hc, hcol, hname]
    exact PreppedData.missCell_name_dotM mv lsv blank hmv
  · have hj := cellD_str_lt t i j ".L" hc (by decide)
    rw [update_missing_cellD t mv lsv [] [] blank i j hj, hc, hcol, hname]
    exact PreppedData.missCell_name_dotL mv lsv blank

/-- Claim C2 as stated is false: with `miss_val = ".L"`, the dotted M cell of a name-bearing column ends as `log_skip_val`, not as `miss_val` (the step-2 result is rewritten again by step 3). -/
theorem claim_C2_counterexample :
    tableC2.cellD 0 0 = Cell.str ".M" ∧
    hasNAME (tableC2.colD 0).name = true ∧
    (PreppedData.update_missing tableC2 ".L" "-8" [] [] false).cellD 0 0 ≠ Cell.str ".L" ∧
    (PreppedData.update_missing tableC2 ".L" "-8" [] [] false).cellD 0 0 = Cell.str "-8" := by
  decide

/-- Witness for the amended claim C2 at a concrete table. -/
theorem claim_C2_witness :
    (PreppedData.update_missing tableC2w "-9" "-8" [] [] false).cellD 0 0 = Cell.str "M" ∧
    (PreppedData.update_missing tableC2w "-9" "-8" [] [] false).cellD 0 1 = Cell.str "L" ∧
    (PreppedData.update_missing tableC2w "-9" "-8" [] [] false).cellD 0 2 = Cell.str "-9" ∧
    (PreppedData.update_missing tableC2w "-9" "-8" [] [] false).cellD 0 3 = Cell.str "-8" :=
  ⟨(claim_C2_amended tableC2w "-9" "-8" false (by decide) (by decide) 0 0 (by decide)).1
      (by decide),
   (claim_C2_amended tableC2w "-9" "-8" false (by decide) (by decide) 0 1 (by decide)).2.1
      (by decide),
   (claim_C2_amended tableC2w "-9" "-8" false (by decide) (by decide) 0 2 (by decide)).2.2.1
      (by decide),
   (claim_C2_amended tableC2w "-9" "-8" false (by decide) (by decide) 0 3 (by decide)).2.2.2
      (by decide)⟩

/-- Per-cell reading of a table-wide replace. -/
theorem mapCells_cellD (f : Cell → Cell) (t : Table) (i j : Nat)
    (hj : j < (t.colD i).cells.length) :
    (mapCells f t).cellD i j = f (t.cellD i j) := by
  unfold mapCells
  exact Table.cellD_mapped t (fun _ => f) (fun col => col.dtype) i j hj

/-- Per-cell reading of the in-memory loader path. -/
theorem initFromData_cellD (t : Table) (i j : Nat)
    (hj : j < (t.colD i).cells.length) :
    (DataAccessor.initFromData t).cellD i j =
      Cell.str (cellToString (t.cellD i j)) := by
  unfold DataAccessor.initFromData
  exact Table.cellD_mapped t (fun _ c => Cell.str (cellToString c))
    (fun _ => Dtype.object) i j hj

/-- Claim C3 (amended): after `update_blanks`, every cell that was one of the blank markers of the source (single space, empty, dot, nan text, the absent cell, plus caller additions) now holds `blank_val`, and no cell of the result is a blank marker other than possibly `blank_val` itself. -/
theorem claim_C3_amended (t : Table) (bv : String) (adds : List Cell) :
    (∀ i j, j < (t.colD i).cells.length →
      t.cellD i j ∈ PreppedData.blankList adds →
      (PreppedData.update_blanks t bv adds).cellD i j = Cell.str bv) ∧
    (∀ col ∈ (PreppedData.update_blanks t bv adds).cols, ∀ c ∈ col.cells,
      c ∈ PreppedData.blankList adds → c = Cell.str bv) := by
  constructor
  · intro i j hj hm
    unfold PreppedData.update_blanks
    rw [mapCells_cellD _ t i j hj, if_pos hm]
  · intro col hcol c hc hm
    unfold PreppedData.update_blanks mapCells at hcol
    rw [List.mem_map] at hcol
    obtain ⟨col0, _, rfl⟩ := hcol
    replace hc : c ∈ col0.cells.map
        (fun c => if c ∈ PreppedData.blankList adds then Cell.str bv else c) := hc
    rw [List.mem_map] at hc
    obtain ⟨c0, _, rfl⟩ := hc
    by_cases h0 : c0 ∈ PreppedData.blankList adds
    · simp [h0]
    · simp only [if_neg h0] at hm
      exact absurd hm h0

/-- Claim C3 as stated is false: a two-space cell is whitespace-only, hence a Blank-class marker of the spec, but `update_blanks` leaves it in place (the source only lists the single-space string). -/
theorem claim_C3_counterexample :
    "  ".data.all (fun c => c = ' ') = true ∧
    Cell.str "  " ≠ Cell.str "-97" ∧
    (PreppedData.update_blanks tableC3 "-97" []).cellD 0 0 = Cell.str "  " := by
  decide

/-- Witness for the amended claim C3 at a concrete table. -/
theorem claim_C3_witness :
    (PreppedData.update_blanks tableC3w "-97" []).cellD 0 0 = Cell.str "-97" :=
  (claim_C3_amended tableC3w "-97" []).1 0 0 (by decide) (by decide)

/-- Two table-wide replaces compose cellwise. -/
theorem mapCells_mapCells (f g : Cell → Cell) (t : Table) :
    mapCells f (mapCells g t) = mapCells (fun c => f (g c)) t := by
  unfold mapCells
  simp only [List.map_map]
  apply congrArg Table.mk
  apply List.map_congr_left
  intro col _
  simp [List.map_map, Function.comp]

/-- Claim C8: `update_blanks` is idempotent for every table, every `blank_val` and every list of additional markers. -/
theorem claim_C8 (t : Table) (bv : String) (adds : List Cell) :
    PreppedData.update_blanks (PreppedData.update_blanks t bv adds) bv adds =
      PreppedData.update_blanks t bv adds := by
  unfold PreppedData.update_blanks
  rw [mapCells_mapCells]
  congr 1
  funext c
  by_cases h : c ∈ PreppedData.blankList adds
  · simp [h]
  · simp [h]

/-- Claim C9: the `inpt_type` argument of `full_prep` has no effect on the result (the code consulting it is commented out in the source). -/
theorem claim_C9 (t : Table) (mv lsv : String) (blank : Bool) (bv : String)
    (it1 it2 : Option String) :
    PreppedData.full_prep t mv lsv blank bv it1 =
      PreppedData.full_prep t mv lsv blank bv it2 := rfl

/-- Claim C10: the in-memory loader path turns every cell into a string cell, sends the absent cell to the literal string nan, and that string is classified as a Blank and as a Missing marker by the default marker sets. -/
theorem claim_C10 (t : Table) :
    (∀ col ∈ (DataAccessor.initFromData t).cols, ∀ c ∈ col.cells,
      ∃ s, c = Cell.str s) ∧
    (∀ i j, j < (t.colD i).cells.length → t.cellD i j = Cell.na →
      (DataAccessor.initFromData t).cellD i j = Cell.str "nan") ∧
    Cell.str "nan" ∈ PreppedData.blankList [] ∧
    Cell.str "nan" ∈ PreppedData.missLst false [] := by
  refine ⟨?_, ?_, by decide, by decide⟩
  · intro col hcol c hc
    unfold DataAccessor.initFromData at hcol
    rw [List.mem_map] at hcol
    obtain ⟨col0, _, rfl⟩ := hcol
    replace hc : c ∈ col0.cells.map (fun c => Cell.str (cellToString c)) := hc
    rw [List.mem_map] at hc
    obtain ⟨c0, _, rfl⟩ := hc
    exact ⟨cellToString c0, rfl⟩
  · intro i j hj hcna
    rw [initFromData_cellD t i j hj, hcna]
    rfl

/-- Witness for claim C10 at a concrete table. -/
theorem claim_C10_witness :
    (DataAccessor.initFromData tableC10w).cellD 0 0 = Cell.str "nan" :=
  (claim_C10 tableC10w).2.1 0 0 (by decide) (by decide)

/-- The two successive filters of `fix_index` equal one filter on the combined index-artifact predicate. -/
theorem fix_index_cols (t : Table) :
    (PreppedData.fix_index t).cols =
      t.cols.filter (fun col => !unnamedArtifact col.name) := by
  unfold PreppedData.fix_index
  show List.filter (fun col => !startsWithStr "UNNAMED" col.name)
      (List.filter (fun col => !startsWithStr "unnamed" col.name) t.cols) =
    List.filter (fun col => !unnamedArtifact col.name) t.cols
  rw [List.filter_filter]
  apply List.filter_congr
  intro col _
  cases h1 : startsWithStr "unnamed" col.name <;>
    cases h2 : startsWithStr "UNNAMED" col.name <;>
      simp [unnamedArtifact, h1, h2]

/-- Claim C6 (amended): `fix_index` removes exactly the columns whose name starts with all-lower-case "unnamed" or all-upper-case "UNNAMED", it is idempotent, and it is the identity on tables with no such column. It does not match mixed casings. -/
theorem claim_C6_amended (t : Table) :
    (PreppedData.fix_index t).cols =
      t.cols.filter (fun col => !unnamedArtifact col.name) ∧
    PreppedData.fix_index (PreppedData.fix_index t) = PreppedData.fix_index t ∧
    ((∀ col ∈ t.cols, unnamedArtifact col.name = false) →
      PreppedData.fix_index t = t) := by
  refine ⟨fix_index_cols t, ?_, ?_⟩
  · calc PreppedData.fix_index (PreppedData.fix_index t)
        = ⟨(PreppedData.fix_index t).cols.filter (fun col => !unnamedArtifact col.name)⟩ :=
          congrArg Table.mk (fix_index_cols _)
      _ = ⟨(t.cols.filter (fun col => !unnamedArtifact col.name)).filter
            (fun col => !unnamedArtifact col.name)⟩ := by rw [fix_index_cols t]
      _ = ⟨t.cols.filter (fun col => !unnamedArtifact col.name)⟩ := by
          rw [List.filter_filter]
          exact congrArg Table.mk (List.filter_congr fun col _ => by
            cases unnamedArtifact col.name <;> simp)
      _ = PreppedData.fix_index t := (congrArg Table.mk (fix_index_cols t)).symm
  · intro h
    calc PreppedData.fix_index t
        = ⟨t.cols.filter (fun col => !unnamedArtifact col.name)⟩ :=
          congrArg Table.mk (fix_index_cols t)
      _ = ⟨t.cols⟩ := congrArg Table.mk (List.filter_eq_self.mpr fun col hc => by
          simp [h col hc])
      _ = t := rfl

/-- Claim C6 as stated is false: the column name "Unnamed: 0" starts with "unnamed" case-insensitively, yet `fix_index` keeps it. -/
theorem claim_C6_counterexample :
    "unnamed".data.isPrefixOf ("Unnamed: 0".data.map Char.toLower) = true ∧
    PreppedData.fix_index tableC6 = tableC6 := by
  decide

/-- Witness for the amended claim C6 at a concrete table. -/
theorem claim_C6_witness :
    PreppedData.fix_index tableC6w = tableC6w :=
  (claim_C6_amended tableC6w).2.2 (by decide)

namespace PreppedData

/-- Coercing a cell to the dtype it already matches is the identity. -/
theorem coerce_of_matches {dt : Dtype} {c : Cell} (h : cellMatches dt c = true) :
    coerce dt c = some c := by
  cases dt <;> cases c <;> simp_all [cellMatches, coerce]

/-- Coercing a well-formed cell list to its own dtype succeeds unchanged. -/
theorem coerceCells_of_matches {dt : Dtype} {cells : List Cell}
    (h : cells.all (cellMatches dt) = true) :
    coerceCells dt cells = some cells := by
  induction cells with
  | nil => rfl
  | cons c cs ih =>
    rw [List.all_cons, Bool.and_eq_true] at h
    unfold coerceCells
    rw [coerce_of_matches h.1, ih h.2]

/-- A successful coercion preserves the cell count. -/
theorem coerceCells_ok_length {dt : Dtype} {cells cs2 : List Cell}
    (h : coerceCells dt cells = some cs2) : cs2.length = cells.length := by
  induction cells generalizing cs2 with
  | nil =>
    unfold coerceCells at h
    injection h with h2
    subst h2
    rfl
  | cons c cs ih =>
    unfold coerceCells at h
    cases hc : coerce dt c <;> rw [hc] at h
    · exact absurd h (by simp)
    · cases hcs : coerceCells dt cs <;> rw [hcs] at h
      · exact absurd h (by simp)
      · injection h with h2
        subst h2
        simp [ih hcs]

/-- Coercing a cell list fails exactly when some member fails. -/
theorem coerceCells_eq_none_iff {dt : Dtype} {cells : List Cell} :
    coerceCells dt cells = none ↔ ∃ c ∈ cells, coerce dt c = none := by
  induction cells with
  | nil => simp [coerceCells]
  | cons c cs ih =>
    rw [show (∃ x ∈ c :: cs, coerce dt x = none) ↔
      (coerce dt c = none ∨ ∃ x ∈ cs, coerce dt x = none) from by simp]
    rw [← ih]
    cases hc : coerce dt c <;> cases hcs : coerceCells dt cs <;>
      simp [coerceCells, hc, hcs]

/-- A successful astype preserves the names, dtypes and cell counts of every column. -/
theorem astypeCols_ok_maps {l l2 : List Column} (h : astypeCols l = Except.ok l2) :
    l2.map (fun col => col.name) = l.map (fun col => col.name) ∧
    l2.map (fun col => col.dtype) = l.map (fun col => col.dtype) ∧
    l2.map (fun col => col.cells.length) = l.map (fun col => col.cells.length) := by
  induction l generalizing l2 with
  | nil =>
    unfold astypeCols at h
    injection h with h2
    subst h2
    exact ⟨rfl, rfl, rfl⟩
  | cons col rest ih =>
    unfold astypeCols at h
    cases hc : coerceCells col.dtype col.cells <;> rw [hc] at h
    · exact absurd h (by simp)
    · cases hr : astypeCols rest <;> rw [hr] at h
      case cons.some.error => exact absurd h (by simp)
      case cons.some.ok rest2 =>
        injection h with h2
        subst h2
        obtain ⟨hn, hd, hl⟩ := ih hr
        refine ⟨?_, ?_, ?_⟩ <;> simp [hn, hd, hl, coerceCells_ok_length hc]

/-- astype fails exactly when some column holds an uncoercible cell. -/
theorem astypeCols_error_iff {l : List Column} :
    (∃ e, astypeCols l = Except.error e) ↔
      ∃ col ∈ l, coerceCells col.dtype col.cells = none := by
  induction l with
  | nil => simp [astypeCols]
  | cons col rest ih =>
    rw [show (∃ c ∈ col :: rest, coerceCells c.dtype c.cells = none) ↔
      (coerceCells col.dtype col.cells = none ∨
        ∃ c ∈ rest, coerceCells c.dtype c.cells = none) from by simp]
    rw [← ih]
    cases hc : coerceCells col.dtype col.cells <;>
      cases hr : astypeCols rest <;> simp [astypeCols, hc, hr]

/-- Closed form of replace-then-update on one cell: a cell equal to the source value becomes the target value unless the target is absent, in which case update skips it; all other cells are unchanged. -/
theorem substUpdate_eq (amv ctv c : Cell) :
    updateFromReplaced (substCell amv ctv) c =
      if c = amv then (if ctv = Cell.na then amv else ctv) else c := by
  unfold updateFromReplaced substCell
  by_cases h : c = amv
  · subst h
    by_cases h2 : ctv = Cell.na <;> simp [h2]
  · simp [h]

/-- For a well-formed column, coercion after substitution fails exactly when the column contains the source value and the effective substituted value does not coerce to the column dtype. -/
theorem coerce_subst_none_iff (dt : Dtype) (cells : List Cell) (amv ctv : Cell)
    (hwf : cells.all (cellMatches dt) = true) :
    coerceCells dt (cells.map (updateFromReplaced (substCell amv ctv))) = none ↔
      (amv ∈ cells ∧ coerce dt (if ctv = Cell.na then amv else ctv) = none) := by
  rw [coerceCells_eq_none_iff]
  constructor
  · rintro ⟨c2, hc2, hfail⟩
    rw [List.mem_map] at hc2
    obtain ⟨c, hcmem, rfl⟩ := hc2
    rw [substUpdate_eq] at hfail
    by_cases h : c = amv
    · rw [if_pos h] at hfail
      exact ⟨h ▸ hcmem, hfail⟩
    · rw [if_neg h] at hfail
      rw [coerce_of_matches (List.all_eq_true.mp hwf c hcmem)] at hfail
      exact absurd hfail (by simp)
  · rintro ⟨hmem, hfail⟩
    refine ⟨updateFromReplaced (substCell amv ctv) amv,
      List.mem_map_of_mem _ hmem, ?_⟩
    rw [substUpdate_eq, if_pos rfl]
    exact hfail

/-- The substitution stage preserves every column name. -/
theorem otherSubstCols_names (t : Table) (amv ctv : Cell) (exc : List String) :
    (otherSubstCols t amv ctv exc).map (fun col => col.name) =
      t.cols.map (fun col => col.name) := by
  unfold otherSubstCols
  rw [List.map_map]
  apply List.map_congr_left
  intro col _
  simp only [Function.comp_apply]
  by_cases h : (hasNAME col.name || col.name ∈ exc : Bool) = true
  · rw [if_pos h]
  · rw [if_neg h]

/-- The substitution stage preserves every column dtype snapshot. -/
theorem otherSubstCols_dtypes (t : Table) (amv ctv : Cell) (exc : List String) :
    (otherSubstCols t amv ctv exc).map (fun col => col.dtype) =
      t.cols.map (fun col => col.dtype) := by
  unfold otherSubstCols
  rw [List.map_map]
  apply List.map_congr_left
  intro col _
  simp only [Function.comp_apply]
  by_cases h : (hasNAME col.name || col.name ∈ exc : Bool) = true
  · rw [if_pos h]
  · rw [if_neg h]

/-- The substitution stage preserves every column cell count. -/
theorem otherSubstCols_lengths (t : Table) (amv ctv : Cell) (exc : List String) :
    (otherSubstCols t amv ctv exc).map (fun col => col.cells.length) =
      t.cols.map (fun col => col.cells.length) := by
  unfold otherSubstCols
  rw [List.map_map]
  apply List.map_congr_left
  intro col _
  simp only [Function.comp_apply]
  by_cases h : (hasNAME col.name || col.name ∈ exc : Bool) = true
  · rw [if_pos h]
  · rw [if_neg h]
    simp

end PreppedData

/-- Claim C4: on a well-formed table, `update_other_missing` preserves the dtype and name of every column whenever it returns a table, and it fails exactly when some eligible column (neither name-bearing nor excluded) contains the source value and the effective substituted value cannot be coerced back to that column dtype. -/
theorem claim_C4 (t : Table) (amv ctv : Cell) (exc : List String)
    (hwf : wellFormed t = true) :
    (∀ t2, PreppedData.update_other_missing t amv ctv exc = Except.ok t2 →
      t2.cols.map (fun col => col.dtype) = t.cols.map (fun col => col.dtype) ∧
      t2.cols.map (fun col => col.name) = t.cols.map (fun col => col.name)) ∧
    ((∃ e, PreppedData.update_other_missing t amv ctv exc = Except.error e) ↔
      ∃ col ∈ t.cols, (hasNAME col.name || col.name ∈ exc : Bool) = false ∧
        amv ∈ col.cells ∧
        coerce col.dtype (if ctv = Cell.na then amv else ctv) = none) := by
  unfold wellFormed at hwf
  have hwfcols : ∀ col ∈ t.cols, col.cells.all (cellMatches col.dtype) = true :=
    fun col hc => List.all_eq_true.mp hwf col hc
  constructor
  · intro t2 h
    unfold PreppedData.update_other_missing at h
    cases hA : PreppedData.astypeCols (PreppedData.otherSubstCols t amv ctv exc) <;>
      rw [hA] at h
    · exact absurd h (by simp)
    · injection h with h2
      subst h2
      obtain ⟨hn, hd, _⟩ := PreppedData.astypeCols_ok_maps hA
      constructor
      · rw [show (⟨_⟩ : Table).cols.map (fun col => col.dtype) =
            _ from hd, PreppedData.otherSubstCols_dtypes]
      · rw [show (⟨_⟩ : Table).cols.map (fun col => col.name) =
            _ from hn, PreppedData.otherSubstCols_names]
  · constructor
    · rintro ⟨e, he⟩
      unfold PreppedData.update_other_missing at he
      cases hA : PreppedData.astypeCols (PreppedData.otherSubstCols t amv ctv exc) <;>
        rw [hA] at he
      case error e2 =>
        obtain ⟨col2, hmem2, hfail2⟩ := PreppedData.astypeCols_error_iff.mp ⟨e2, hA⟩
        unfold PreppedData.otherSubstCols at hmem2
        rw [List.mem_map] at hmem2
        obtain ⟨col, hmem, rfl⟩ := hmem2
        by_cases hcnd : (hasNAME col.name || col.name ∈ exc : Bool) = true
        · rw [if_pos hcnd] at hfail2
          rw [PreppedData.coerceCells_of_matches (hwfcols col hmem)] at hfail2
          exact absurd hfail2 (by simp)
        · rw [if_neg hcnd] at hfail2
          have hfail3 : coerceCells col.dtype
              (col.cells.map (updateFromReplaced
                (PreppedData.substCell amv ctv))) = none := hfail2
          obtain ⟨hin, hco⟩ := (PreppedData.coerce_subst_none_iff col.dtype
            col.cells amv ctv (hwfcols col hmem)).mp hfail3
          exact ⟨col, hmem, by simpa using hcnd, hin, hco⟩
      case ok cs => exact absurd he (by simp)
    · rintro ⟨col, hmem, hcnd, hin, hco⟩
      have hfail : coerceCells col.dtype
          (col.cells.map (updateFromReplaced (PreppedData.substCell amv ctv))) = none :=
        (PreppedData.coerce_subst_none_iff col.dtype col.cells amv ctv
          (hwfcols col hmem)).mpr ⟨hin, hco⟩
      have hex : ∃ col2 ∈ PreppedData.otherSubstCols t amv ctv exc,
          coerceCells col2.dtype col2.cells = none := by
        refine ⟨⟨col.name, col.dtype, col.cells.map
          (updateFromReplaced (PreppedData.substCell amv ctv))⟩, ?_, hfail⟩
        unfold PreppedData.otherSubstCols
        rw [List.mem_map]
        refine ⟨col, hmem, ?_⟩
        rw [if_neg (by simp [hcnd])]
      obtain ⟨e2, hA⟩ := PreppedData.astypeCols_error_iff.mpr hex
      refine ⟨e2, ?_⟩
      unfold PreppedData.update_other_missing
      rw [hA]

/-- Witness for claim C4: a successful substitution preserving dtypes, and a failing coercion of text into an int column. -/
theorem claim_C4_witness :
    ((PreppedData.update_other_missing tableC4 (Cell.str ".N") (Cell.str "-9") []
        = Except.ok ⟨[⟨"A", Dtype.object, [Cell.str "-9"]⟩,
            ⟨"FNAME", Dtype.object, [Cell.str "M"]⟩]⟩) ∧
      (⟨[⟨"A", Dtype.object, [Cell.str "-9"]⟩,
          ⟨"FNAME", Dtype.object, [Cell.str "M"]⟩]⟩ : Table).cols.map
            (fun col => col.dtype) = tableC4.cols.map (fun col => col.dtype)) ∧
    (∃ e, PreppedData.update_other_missing tableC4b (Cell.int 7) (Cell.str "x") []
        = Except.error e) :=
  ⟨⟨by decide,
    ((claim_C4 tableC4 (Cell.str ".N") (Cell.str "-9") [] (by decide)).1 _
      (by decide)).1⟩,
   (claim_C4 tableC4b (Cell.int 7) (Cell.str "x") [] (by decide)).2.mpr
    ⟨⟨"B", Dtype.int64, [Cell.int 7]⟩, by decide, by decide, by decide, by decide⟩⟩

namespace PreppedData

/-- A successful numeric parse preserves the cell count. -/
theorem parseCells_ok_length {cells : List Cell} {vals : List (Option Dec)}
    (h : parseCells cells = some vals) : vals.length = cells.length := by
  induction cells generalizing vals with
  | nil =>
    unfold parseCells at h
    injection h with h2
    subst h2
    rfl
  | cons c cs ih =>
    unfold parseCells at h
    cases hc : parseCell c <;> rw [hc] at h
    · exact absurd h (by simp)
    · cases hcs : parseCells cs <;> rw [hcs] at h
      · exact absurd h (by simp)
      · injection h with h2
        subst h2
        simp [ih hcs]

/-- Best-effort numeric conversion keeps the column name. -/
theorem convertCol_name (col : Column) (b : Bool) :
    (convertCol col b).name = col.name := by
  unfold convertCol
  cases hp : parseCells col.cells with
  | none => rfl
  | some vals =>
    dsimp only
    by_cases h1 : (b && vals.all (fun v => match v with
        | some d => d.exp = 0
        | none => false)) = true
    · rw [if_pos h1]
    · rw [if_neg h1]
      by_cases h2 : col.cells.all isIntLitCell = true
      · rw [if_pos h2]
      · rw [if_neg h2]

/-- Best-effort numeric conversion keeps the cell count. -/
theorem convertCol_length (col : Column) (b : Bool) :
    (convertCol col b).cells.length = col.cells.length := by
  unfold convertCol
  cases hp : parseCells col.cells with
  | none => rfl
  | some vals =>
    dsimp only
    have hlen := parseCells_ok_length hp
    by_cases h1 : (b && vals.all (fun v => match v with
        | some d => d.exp = 0
        | none => false)) = true
    · rw [if_pos h1]
      simp [hlen]
    · rw [if_neg h1]
      by_cases h2 : col.cells.all isIntLitCell = true
      · rw [if_pos h2]
        simp [hlen]
      · rw [if_neg h2]
        simp [hlen]

end PreppedData

/-- Claim C5 (amended): when every excluded name names a column, `convert_num_dtypes` returns a table (surfacing no error) in which each candidate column is converted independently; a column any cell of which fails to parse is left completely unchanged, and a fully parsed column becomes numeric, int-typed exactly when `as_int` holds with all values integral or when every input cell is an integer literal, and float-typed otherwise. -/
theorem claim_C5_amended (t : Table) (exclude : List String) (as_int : Bool)
    (rem : List String)
    (hrem : PreppedData.removeAll (t.cols.map fun col => col.name) exclude =
      Except.ok rem) :
    PreppedData.convert_num_dtypes t exclude as_int =
      Except.ok ⟨t.cols.map fun col =>
        if col.name ∈ rem then PreppedData.convertCol col as_int else col⟩ ∧
    ∀ col : Column,
      (PreppedData.parseCells col.cells = none →
        PreppedData.convertCol col as_int = col) ∧
      ∀ vals, PreppedData.parseCells col.cells = some vals →
        (PreppedData.convertCol col as_int).name = col.name ∧
        (PreppedData.convertCol col as_int).cells.length = col.cells.length ∧
        ((PreppedData.convertCol col as_int).dtype = Dtype.int64 ∨
          (PreppedData.convertCol col as_int).dtype = Dtype.float64) ∧
        (∀ c ∈ (PreppedData.convertCol col as_int).cells,
          (∃ n, c = Cell.int n) ∨ (∃ d, c = Cell.float d) ∨ c = Cell.na) ∧
        ((PreppedData.convertCol col as_int).dtype = Dtype.int64 ↔
          (as_int = true ∧ vals.all (fun v => match v with
            | some d => d.exp = 0
            | none => false) = true) ∨
          col.cells.all isIntLitCell = true) := by
  constructor
  · unfold PreppedData.convert_num_dtypes
    rw [hrem]
  · intro col
    constructor
    · intro hp
      unfold PreppedData.convertCol
      rw [hp]
    · intro vals hp
      refine ⟨PreppedData.convertCol_name col as_int,
        PreppedData.convertCol_length col as_int, ?_⟩
      unfold PreppedData.convertCol
      rw [hp]
      dsimp only
      by_cases h1 : (as_int && vals.all (fun v => match v with
          | some d => d.exp = 0
          | none => false)) = true
      · rw [if_pos h1]
        rw [Bool.and_eq_true] at h1
        refine ⟨Or.inl rfl, ?_, iff_of_true rfl (Or.inl h1)⟩
        intro c hc
        rw [List.mem_map] at hc
        obtain ⟨v, _, rfl⟩ := hc
        cases v with
        | none => exact Or.inr (Or.inr rfl)
        | some d => exact Or.inl ⟨d.num, rfl⟩
      · rw [if_neg h1]
        by_cases h2 : col.cells.all isIntLitCell = true
        · rw [if_pos h2]
          refine ⟨Or.inl rfl, ?_, iff_of_true rfl (Or.inr h2)⟩
          intro c hc
          rw [List.mem_map] at hc
          obtain ⟨v, _, rfl⟩ := hc
          cases v with
          | none => exact Or.inr (Or.inr rfl)
          | some d => exact Or.inl ⟨d.num, rfl⟩
        · rw [if_neg h2]
          refine ⟨Or.inr rfl, ?_, ?_⟩
          · intro c hc
            rw [List.mem_map] at hc
            obtain ⟨v, _, rfl⟩ := hc
            cases v with
            | none => exact Or.inr (Or.inr rfl)
            | some d => exact Or.inr (Or.inl ⟨d, rfl⟩)
          · refine iff_of_false (by simp) ?_
            rintro (⟨ha, hall⟩ | hint)
            · exact h1 (by simp [ha, hall])
            · exact h2 hint

/-- Claim C5 as stated is false: with `as_int = false`, a column of integer literals is converted to the int dtype, not to floating point as the claim requires. -/
theorem claim_C5_counterexample :
    PreppedData.convert_num_dtypes tableC5 [] false
      = Except.ok ⟨[⟨"A", Dtype.int64, [Cell.int 1]⟩]⟩ ∧
    Dtype.int64 ≠ Dtype.float64 ∧
    (⟨"A", Dtype.int64, [Cell.int 1]⟩ : Column) ≠ ⟨"A", Dtype.object, [Cell.str "1"]⟩ := by
  decide

/-- Witness for the amended claim C5 at a concrete table. -/
theorem claim_C5_witness :
    PreppedData.convert_num_dtypes tableC5w ["B"] false = Except.ok tableC5w := by
  have h := (claim_C5_amended tableC5w ["B"] false ["A"] (by decide)).1
  rw [h]
  decide

/-- A cell index inside a column bounds the column index itself. -/
theorem Table.colD_cells_lt (t : Table) (i j : Nat)
    (hj : j < (t.colD i).cells.length) : i < t.cols.length := by
  by_contra hcon
  push_neg at hcon
  rw [Table.colD_oob t i hcon] at hj
  simp at hj

/-- Positional access through a map, inside the range (the default values
are irrelevant there). -/
theorem getD_map_lt {a b : Type} (f : a → b) (l : List a) (j : Nat)
    (hj : j < l.length) (d1 : b) (d2 : a) :
    (l.map f).getD j d1 = f (l.getD j d2) := by
  rw [List.getD_eq_getElem?_getD, List.getElem?_map, List.getElem?_eq_getElem hj]
  rw [List.getD_eq_getElem?_getD, List.getElem?_eq_getElem hj]
  rfl

/-- A successful coercion is positional: the output cell at every row is
the coercion of the input cell at that same row. -/
theorem coerceCells_pointwise {dt : Dtype} {cells cs2 : List Cell}
    (h : coerceCells dt cells = some cs2) (j : Nat) (hj : j < cells.length) :
    coerce dt (cells.getD j (Cell.str "")) = some (cs2.getD j (Cell.str "")) := by
  induction cells generalizing cs2 j with
  | nil => simp at hj
  | cons c cs ih =>
    unfold coerceCells at h
    cases hc : coerce dt c with
    | none =>
      rw [hc] at h
      exact absurd h (by simp)
    | some c2 =>
      rw [hc] at h
      cases hcs : coerceCells dt cs with
      | none =>
        rw [hcs] at h
        exact absurd h (by simp)
      | some csr =>
        rw [hcs] at h
        injection h with h2
        subst h2
        cases j with
        | zero =>
          rw [List.getD_cons_zero, List.getD_cons_zero]
          exact hc
        | succ j2 =>
          rw [List.getD_cons_succ, List.getD_cons_succ]
          exact ih hcs j2 (by simpa using hj)

namespace PreppedData

/-- A successful numeric parse is positional: the value at every row is
the parse of the input cell at that same row. -/
theorem parseCells_pointwise {cells : List Cell} {vals : List (Option Dec)}
    (h : parseCells cells = some vals) (j : Nat) (hj : j < cells.length) :
    parseCell (cells.getD j (Cell.str "")) = some (vals.getD j none) := by
  induction cells generalizing vals j with
  | nil => simp at hj
  | cons c cs ih =>
    unfold parseCells at h
    cases hc : parseCell c with
    | none =>
      rw [hc] at h
      exact absurd h (by simp)
    | some v =>
      rw [hc] at h
      cases hcs : parseCells cs with
      | none =>
        rw [hcs] at h
        exact absurd h (by simp)
      | some vs =>
        rw [hcs] at h
        injection h with h2
        subst h2
        cases j with
        | zero =>
          rw [List.getD_cons_zero, List.getD_cons_zero]
          exact hc
        | succ j2 =>
          rw [List.getD_cons_succ, List.getD_cons_succ]
          exact ih hcs j2 (by simpa using hj)

/-- A successful astype is positional on columns: at every position the
output column keeps the snapshot dtype and its cells are the coercion of
the input column cells there. -/
theorem astypeCols_pointwise {l l2 : List Column}
    (h : astypeCols l = Except.ok l2) (i : Nat) (hi : i < l.length) :
    (l2.getD i ⟨"", Dtype.object, []⟩).dtype =
      (l.getD i ⟨"", Dtype.object, []⟩).dtype ∧
    coerceCells (l.getD i ⟨"", Dtype.object, []⟩).dtype
        (l.getD i ⟨"", Dtype.object, []⟩).cells
      = some ((l2.getD i ⟨"", Dtype.object, []⟩).cells) := by
  induction l generalizing l2 i with
  | nil => simp at hi
  | cons col rest ih =>
    unfold astypeCols at h
    cases hc : coerceCells col.dtype col.cells with
    | none =>
      rw [hc] at h
      exact absurd h (by simp)
    | some cs =>
      rw [hc] at h
      cases hr : astypeCols rest with
      | error e =>
        rw [hr] at h
        exact absurd h (by simp)
      | ok rest2 =>
        rw [hr] at h
        injection h with h2
        subst h2
        cases i with
        | zero =>
          rw [List.getD_cons_zero, List.getD_cons_zero]
          exact ⟨rfl, hc⟩
        | succ i2 =>
          rw [List.getD_cons_succ, List.getD_cons_succ]
          exact ih hr i2 (by simpa using hi)

end PreppedData

/-- Claim C7: every engine operation except `fix_index` preserves the shape (the rowcount of every column, in column order, hence also the column count) and preserves row order: at every in-range position, the output cell is obtained from the input cell at that same position (unchanged, rewritten by the sentinel map of the operation, or the coerced or parsed rendering of that very cell — never a cell from another row); `fix_index` only drops whole columns matching the index-artifact pattern, keeping the others intact and in order. -/
theorem claim_C7 (t : Table) (bv : String) (badds : List Cell) (mv lsv : String)
    (ma la : List Cell) (blank : Bool) (amv ctv : Cell) (exc exc2 : List String)
    (as_int : Bool) :
    ((PreppedData.capitalize_cols t).shape = t.shape ∧
      ∀ i j, j < (t.colD i).cells.length →
        (PreppedData.capitalize_cols t).cellD i j = t.cellD i j) ∧
    ((PreppedData.update_blanks t bv badds).shape = t.shape ∧
      ∀ i j, j < (t.colD i).cells.length →
        (PreppedData.update_blanks t bv badds).cellD i j =
          (if t.cellD i j ∈ PreppedData.blankList badds then Cell.str bv
           else t.cellD i j)) ∧
    ((PreppedData.update_missing t mv lsv ma la blank).shape = t.shape ∧
      ∀ i j, j < (t.colD i).cells.length →
        (PreppedData.update_missing t mv lsv ma la blank).cellD i j =
          PreppedData.missCell (hasNAME (t.colD i).name)
            (PreppedData.hasNameCol t) mv lsv ma la blank (t.cellD i j)) ∧
    (∀ t2, PreppedData.update_other_missing t amv ctv exc = Except.ok t2 →
      t2.shape = t.shape ∧
      ∀ i j, j < (t.colD i).cells.length →
        coerce (t.colD i).dtype (updateFromReplaced
          (PreppedData.substCell amv ctv) (t.cellD i j)) = some (t2.cellD i j) ∨
        coerce (t.colD i).dtype (t.cellD i j) = some (t2.cellD i j)) ∧
    ((PreppedData.set_int_object t).shape = t.shape ∧
      ∀ i j, j < (t.colD i).cells.length →
        (PreppedData.set_int_object t).cellD i j =
          Cell.str (PreppedData.stripDotZeros (cellToString (t.cellD i j)))) ∧
    ((PreppedData.set_all_object t).shape = t.shape ∧
      ∀ i j, j < (t.colD i).cells.length →
        (PreppedData.set_all_object t).cellD i j = t.cellD i j) ∧
    (∀ t2, PreppedData.convert_num_dtypes t exc2 as_int = Except.ok t2 →
      t2.shape = t.shape ∧
      ∀ i j, j < (t.colD i).cells.length →
        (t2.cellD i j = t.cellD i j ∨
         ∃ v, parseCell (t.cellD i j) = some v ∧
           (t2.cellD i j = PreppedData.intCellOfVal v ∨
            t2.cellD i j = PreppedData.numCellOfVal v))) ∧
    (PreppedData.fix_index t).cols.Sublist t.cols ∧
    (∀ col ∈ t.cols, unnamedArtifact col.name = false →
      col ∈ (PreppedData.fix_index t).cols) := by
  refine ⟨⟨?_, ?_⟩, ⟨?_, ?_⟩, ⟨?_, ?_⟩, ?_, ⟨?_, ?_⟩, ⟨?_, ?_⟩, ?_, ?_, ?_⟩
  · simp [Table.shape, PreppedData.capitalize_cols, List.map_map, Function.comp]
  · intro i j hj
    have hi := Table.colD_cells_lt t i j hj
    unfold PreppedData.capitalize_cols Table.cellD
    rw [Table.colD_map t _ i hi]
  · simp [Table.shape, PreppedData.update_blanks, mapCells, List.map_map,
      Function.comp]
  · intro i j hj
    unfold PreppedData.update_blanks
    exact mapCells_cellD _ t i j hj
  · rw [show (PreppedData.update_missing t mv lsv ma la blank).shape =
      (⟨t.cols.map fun col => ⟨col.name, col.dtype, col.cells.map
        (PreppedData.missCell (hasNAME col.name) (PreppedData.hasNameCol t)
          mv lsv ma la blank)⟩⟩ : Table).shape from
      congrArg Table.shape (congrArg Table.mk
        (PreppedData.update_missing_cols_eq t mv lsv ma la blank))]
    simp [Table.shape, List.map_map, Function.comp]
  · intro i j hj
    exact update_missing_cellD t mv lsv ma la blank i j hj
  · intro t2 h
    unfold PreppedData.update_other_missing at h
    cases hA : PreppedData.astypeCols (PreppedData.otherSubstCols t amv ctv exc) <;>
      rw [hA] at h
    · exact absurd h (by simp)
    · injection h with h2
      subst h2
      constructor
      · obtain ⟨_, _, hl⟩ := PreppedData.astypeCols_ok_maps hA
        show _ = t.shape
        unfold Table.shape
        rw [show (⟨_⟩ : Table).cols.map (fun col => col.cells.length) = _ from hl,
          PreppedData.otherSubstCols_lengths]
      · intro i j hj
        have hi := Table.colD_cells_lt t i j hj
        have hlsub : i < (PreppedData.otherSubstCols t amv ctv exc).length := by
          unfold PreppedData.otherSubstCols
          rw [List.length_map]
          exact hi
        have hsub := Table.colD_map t
          (fun col => if hasNAME col.name || col.name ∈ exc then col
            else ⟨col.name, col.dtype, col.cells.map
              (updateFromReplaced (PreppedData.substCell amv ctv))⟩) i hi
        dsimp only at hsub
        have hpw := PreppedData.astypeCols_pointwise hA i hlsub
        by_cases hcnd : (hasNAME (t.colD i).name || (t.colD i).name ∈ exc : Bool)
            = true
        · right
          rw [if_pos hcnd] at hsub
          have hsub2 : (PreppedData.otherSubstCols t amv ctv exc).getD i
              ⟨"", Dtype.object, []⟩ = t.colD i := hsub
          rw [hsub2] at hpw
          exact coerceCells_pointwise hpw.2 j hj
        · left
          rw [if_neg hcnd] at hsub
          have hsub2 : (PreppedData.otherSubstCols t amv ctv exc).getD i
              ⟨"", Dtype.object, []⟩ =
              ⟨(t.colD i).name, (t.colD i).dtype, (t.colD i).cells.map
                (updateFromReplaced (PreppedData.substCell amv ctv))⟩ := hsub
          rw [hsub2] at hpw
          dsimp only at hpw
          have hj2 : j < ((t.colD i).cells.map
              (updateFromReplaced (PreppedData.substCell amv ctv))).length := by
            rw [List.length_map]
            exact hj
          have hpt := coerceCells_pointwise hpw.2 j hj2
          rw [getD_map_lt _ _ j hj (Cell.str "") (Cell.str "")] at hpt
          exact hpt
  · simp [Table.shape, PreppedData.set_int_object, List.map_map, Function.comp]
  · intro i j hj
    unfold PreppedData.set_int_object
    exact Table.cellD_mapped t
      (fun _ c => Cell.str (PreppedData.stripDotZeros (cellToString c)))
      (fun _ => Dtype.object) i j hj
  · simp [Table.shape, PreppedData.set_all_object, List.map_map, Function.comp]
  · intro i j hj
    have hi := Table.colD_cells_lt t i j hj
    unfold PreppedData.set_all_object Table.cellD
    rw [Table.colD_map t _ i hi]
  · intro t2 h
    unfold PreppedData.convert_num_dtypes at h
    cases hrem : PreppedData.removeAll (t.cols.map fun col => col.name) exc2 with
    | error e =>
      rw [hrem] at h
      exact absurd h (by simp)
    | ok remaining =>
      rw [hrem] at h
      injection h with h2
      subst h2
      constructor
      · unfold Table.shape
        rw [List.map_map]
        apply List.map_congr_left
        intro col _
        simp only [Function.comp_apply]
        by_cases hc : col.name ∈ remaining
        · rw [if_pos hc]
          exact PreppedData.convertCol_length col as_int
        · rw [if_neg hc]
      · intro i j hj
        have hi := Table.colD_cells_lt t i j hj
        have hcol := Table.colD_map t
          (fun col => if col.name ∈ remaining
            then PreppedData.convertCol col as_int else col) i hi
        unfold Table.cellD
        rw [hcol]
        dsimp only
        by_cases hmem : (t.colD i).name ∈ remaining
        · rw [if_pos hmem]
          cases hp : PreppedData.parseCells (t.colD i).cells with
          | none =>
            left
            have hcc : PreppedData.convertCol (t.colD i) as_int = t.colD i := by
              unfold PreppedData.convertCol
              rw [hp]
            rw [hcc]
          | some vals =>
            right
            have hlen := PreppedData.parseCells_ok_length hp
            refine ⟨vals.getD j none, PreppedData.parseCells_pointwise hp j hj, ?_⟩
            unfold PreppedData.convertCol
            rw [hp]
            dsimp only
            by_cases h1 : (as_int && vals.all (fun v => match v with
                | some d => d.exp = 0
                | none => false)) = true
            · rw [if_pos h1]
              left
              exact getD_map_lt _ _ j (by rw [hlen]; exact hj) _ none
            · rw [if_neg h1]
              by_cases h2 : (t.colD i).cells.all isIntLitCell = true
              · rw [if_pos h2]
                left
                exact getD_map_lt _ _ j (by rw [hlen]; exact hj) _ none
              · rw [if_neg h2]
                right
                exact getD_map_lt _ _ j (by rw [hlen]; exact hj) _ none
        · rw [if_neg hmem]
          left
          rfl
  · rw [show (PreppedData.fix_index t).cols = _ from fix_index_cols t]
    exact List.filter_sublist _
  · intro col hc hart
    rw [show (PreppedData.fix_index t).cols = _ from fix_index_cols t]
    exact List.mem_filter.mpr ⟨hc, by simp [hart]⟩

/-- Witness for claim C7 at a concrete table, exercising the shape and
the positional cell conjuncts. -/
theorem claim_C7_witness :
    (PreppedData.update_blanks tableC7w "-97" []).shape = tableC7w.shape ∧
    (PreppedData.update_blanks tableC7w "-97" []).cellD 0 1 = Cell.str "-97" ∧
    (⟨[⟨"A", Dtype.object, [Cell.str "2", Cell.str ""]⟩]⟩ : Table).shape
      = tableC7w.shape ∧
    tableC7w.shape = tableC7w.shape := by
  refine ⟨?_, ?_, ?_, ?_⟩
  · exact (claim_C7 tableC7w "-97" [] ".M" ".L" [] [] false (Cell.str "1")
      (Cell.str "2") [] [] false).2.1.1
  · rw [(claim_C7 tableC7w "-97" [] ".M" ".L" [] [] false (Cell.str "1")
      (Cell.str "2") [] [] false).2.1.2 0 1 (by decide)]
    decide
  · exact ((claim_C7 tableC7w "-97" [] ".M" ".L" [] [] false (Cell.str "1")
      (Cell.str "2") [] [] false).2.2.2.1
      ⟨[⟨"A", Dtype.object, [Cell.str "2", Cell.str ""]⟩]⟩ (by decide)).1
  · exact ((claim_C7 tableC7w "-97" [] ".M" ".L" [] [] false (Cell.str "1")
      (Cell.str "2") [] [] false).2.2.2.2.2.2.1 tableC7w (by decide)).1
